import Mathlib

/-!
Shallow embedding of `src/ChatTransrator.py` (YouTube live-chat translator).

The embedded fragment is the chat-polling pipeline of `ChatTranslatorApp`:
`start` (lines 184-195), `_detect_language` (197-199), `_poll_loop` (201-256)
and `_translate_free` (258-271), together with the CSV sink rows the loop
writes.  Machinery that the claims do not touch (Tkinter widget construction,
the scrolled-text logger, the OBS overlay whose failures are swallowed, file
handles) is not modelled; the observable behaviour of the loop is captured as
a trace of events: fetch calls, per-message processing markers, CSV rows and
sleeps.

External effects (the googletrans client, the LibreTranslate HTTP endpoint,
the wall clock, the `as_completed` completion order) are supplied by an
environment record, so a run of the loop is a pure function of the
environment and the sequence of poll responses the chat source produces.
-/

namespace ChatTransrator

/-- One element of `resp["items"]` in `_poll_loop`: `item["id"]`,
`item["authorDetails"]["displayName"]`, `item["snippet"]["displayMessage"]`. -/
structure Item where
  id : String
  author : String
  text : String
deriving DecidableEq

/-- One response of `youtube.liveChatMessages().list(...).execute()`:
`resp.get("items", [])`, `resp.get("nextPageToken")` (absent allowed) and
`resp.get("pollingIntervalMillis", 2000)` (absent allowed, default 2000). -/
structure PollResp where
  items : List Item
  nextPageToken : Option String
  pollingIntervalMillis : Option Nat
deriving DecidableEq

/-- The observable part of a `requests.post(LIBRE_URL, ...)` response in
`_translate_free`: the HTTP status code and the JSON body.  `jsonBody = none`
means the body is not parseable JSON (so `r.json()` raises);
`jsonBody = some f` means it parsed, with `f` the optional
`translatedText` field. -/
structure LibreResp where
  status : Nat
  jsonBody : Option (Option String)
deriving DecidableEq

/-- The environment of one polling session: the external collaborators and
runtime configuration read by `_poll_loop` and `_translate_free`.

* `detect t` — `self.trans_google.detect(t).lang.lower()` (the googletrans
  client; `_detect_language` always uses this client, whatever engine is
  selected for translation);
* `googleTranslate t c` — result of `self.trans_google.translate(t, dest=c)`,
  `.error` when the call raises;
* `librePost t c` — result of `requests.post(LIBRE_URL, data=...)`,
  `.error` when the request raises (network error);
* `engine` — `self.translator_var.get()`;
* `skipLangs` — the union of `SKIP_LANGS_LOWER` and the UI-toggled
  exclusion codes (`ui_skip`), all lowercase;
* `targetCodes` — the codes of the checked target-language boxes
  (`target_codes` at line 243);
* `order n` — the order in which `concurrent.futures.as_completed` yields
  the futures of the n-th processed message, as the list of their target
  codes (always a permutation of `targetCodes` in a real run);
* `clock n` — `datetime.now().isoformat()` at the n-th processed message. -/
structure Env where
  detect : String → String
  googleTranslate : String → String → Except String String
  librePost : String → String → Except String LibreResp
  engine : String
  skipLangs : List String
  targetCodes : List String
  order : Nat → List String
  clock : Nat → String

/-- Observable events of one polling session, in program order.

* `fetch c` — a `liveChatMessages().list(..., pageToken=c)` call is issued;
* `processMsg id` — an item passed the seen-set guard (line 213) and its id
  was added to `seen` (line 215): the message is forwarded to processing;
* `csvRow ...` — `self.csv_writer.writerow([timestamp, author, lang,
  original, translated])`;
* `sleepSec q` — `time.sleep(interval)` for `q` seconds. -/
inductive Event where
  | fetch (pageToken : String)
  | processMsg (id : String)
  | csvRow (timestamp author lang original translated : String)
  | sleepSec (seconds : ℚ)
deriving DecidableEq

/-- The mutable per-session loop state: the `seen` set (as the list of ids
added so far, newest first) plus a counter of processed messages used to
index `Env.clock` and `Env.order`. -/
structure LoopState where
  seen : List String
  count : Nat
deriving DecidableEq

/-- The per-future handler at lines 249-252: `fut.result()` on success, and
`f"[Error] {e}"` when the translation task raised `e`. -/
def renderOutcome : Except String String → String
  | .ok t => t
  | .error e => "[Error] " ++ e

/-- `_detect_language` (lines 197-199): always delegates to the googletrans
client `self.trans_google`, regardless of the selected translation engine. -/
def detect_language (env : Env) (text : String) : String :=
  env.detect text

/-- `_translate_free` (lines 258-271).  The googletrans branch returns the
client's result; the libre branch posts to the endpoint, raises when the
body is not JSON (`r.json()`), and otherwise returns
`r.json().get("translatedText", "")` — note that the HTTP status code is
never inspected.  Any other engine raises `RuntimeError`.  An exception is
modelled as `.error` (it is caught per-future at line 251). -/
def translate_free (env : Env) (text : String) (target_lang : String) :
    Except String String :=
  if env.engine = "googletrans" then
    env.googleTranslate text target_lang
  else if env.engine = "libre" then
    match env.librePost text target_lang with
    | .error e => .error e
    | .ok r =>
      match r.jsonBody with
      | none => .error "JSONDecodeError"
      | some field => .ok (field.getD "")
  else
    .error "Unsupported translator"

/-- The fan-out at lines 245-254: one future per target code, collected by
`as_completed` in completion order `ord`; each completed future produces one
CSV row tagged with its own target code. -/
def dispatch (env : Env) (ts author original : String) (ord : List String) :
    List Event :=
  ord.map (fun code =>
    Event.csvRow ts author code original
      (renderOutcome (translate_free env original code)))

/-- The body of the `for item in resp.get("items", [])` loop
(lines 212-254): the seen-set guard, language detection, the skip filter
(config list and UI toggles), the original-text row, and the translation
fan-out.  A skipped item writes `[ts, author, detected, original, original]`
and continues; a translated item writes `[ts, author, "original", original,
original]` followed by one row per completed translation future. -/
def processItem (env : Env) (st : LoopState) (it : Item) :
    LoopState × List Event :=
  if st.seen.contains it.id then (st, [])
  else
    if env.skipLangs.contains (detect_language env it.text) then
      (⟨it.id :: st.seen, st.count + 1⟩,
       [Event.processMsg it.id,
        Event.csvRow (env.clock st.count) it.author
          (detect_language env it.text) it.text it.text])
    else
      (⟨it.id :: st.seen, st.count + 1⟩,
       Event.processMsg it.id ::
       Event.csvRow (env.clock st.count) it.author "original" it.text it.text ::
       dispatch env (env.clock st.count) it.author it.text (env.order st.count))

/-- The item loop of one poll iteration, in the order the response provides
the items. -/
def processItems (env : Env) (st : LoopState) : List Item → LoopState × List Event
  | [] => (st, [])
  | it :: its =>
    ((processItems env (processItem env st it).1 its).1,
     (processItem env st it).2 ++ (processItems env (processItem env st it).1 its).2)

/-- Line 210: `interval = float(resp.get("pollingIntervalMillis", 2000)) / 1000`
(seconds, as an exact rational). -/
def intervalSec (r : PollResp) : ℚ :=
  ((r.pollingIntervalMillis.getD 2000 : Nat) : ℚ) / 1000

/-- One successful poll iteration after the fetch: process every item of the
response, then `time.sleep(interval)` (line 256). -/
def pollStep (env : Env) (st : LoopState) (r : PollResp) : LoopState × List Event :=
  ((processItems env st r.items).1,
   (processItems env st r.items).2 ++ [Event.sleepSec (intervalSec r)])

/-- `_poll_loop`'s `while self.is_running` loop (lines 203-256), driven by
the sequence of outcomes the chat source produces for the successive fetch
calls made while the session is running.  Each iteration issues a fetch with
`pageToken = self.next_page_token or ""` (absent is passed as `""`), then:

* on an exception from `.execute()` the error propagates out of
  `_poll_loop` — there is no `try/except` around the fetch — so the polling
  thread dies and nothing further happens;
* on success, `self.next_page_token = resp.get("nextPageToken")` is stored
  unconditionally, the items are processed, the loop sleeps, and the next
  iteration fetches with the stored token. -/
def pollLoop (env : Env) (cursor : Option String) (st : LoopState) :
    List (Except String PollResp) → List Event
  | [] => []
  | .error _ :: _ => [Event.fetch (cursor.getD "")]
  | .ok r :: rs =>
    Event.fetch (cursor.getD "") ::
      ((pollStep env st r).2 ++ pollLoop env r.nextPageToken (pollStep env st r).1 rs)

/-- A whole session: `_poll_loop` starts with `seen = set()` (line 202) and
`self.next_page_token = None` (set in `__init__`, line 128). -/
def pollSession (env : Env) (rs : List (Except String PollResp)) : List Event :=
  pollLoop env none ⟨[], 0⟩ rs

/-- The message ids the loop actually consumes from a sequence of fetch
outcomes: all ids of all responses up to (and excluding) the first failing
fetch, since a failing fetch kills the loop. -/
def consumedIds : List (Except String PollResp) → List String
  | [] => []
  | .error _ :: _ => []
  | .ok r :: rs => r.items.map Item.id ++ consumedIds rs

/-- The page tokens of the fetch calls of a trace, in order. -/
def fetchToken : Event → Option String
  | .fetch c => some c
  | _ => none

/-- The sequence of cursors used by the fetch calls of a trace. -/
def fetchCursors (t : List Event) : List String :=
  t.filterMap fetchToken

/-- Recognizes the processing marker of a given message id. -/
def isProcess (id : String) : Event → Bool
  | .processMsg i => i == id
  | _ => false

/-- Recognizes fetch events. -/
def isFetch : Event → Bool
  | .fetch _ => true
  | _ => false

/-- Recognizes CSV rows whose `lang` column is a given code. -/
def isRowWithLang (code : String) : Event → Bool
  | .csvRow _ _ lang _ _ => lang == code
  | _ => false

/-- Recognizes a failed translation result. -/
def isFailure : Except String String → Bool
  | .error _ => true
  | .ok _ => false

/-- Specification of the CSV rows the loop can append, by the `lang`,
`original` and `translated` columns: the untranslated row of a translated
message (`lang = "original"`, translated column repeats the original), the
single row of a skipped message (`lang` is the detected language, which is
in the skip set, and the translated column repeats the original), or a
translation row (`lang` is one of some processed message's completion-order
codes and the translated column is that code's rendered outcome). -/
def rowSpec (env : Env) (lang orig tr : String) : Prop :=
  (lang = "original" ∧ tr = orig) ∨
  (lang = detect_language env orig ∧ lang ∈ env.skipLangs ∧ tr = orig) ∨
  (∃ k, lang ∈ env.order k ∧ tr = renderOutcome (translate_free env orig lang))

/-- The app-level state `start` (lines 184-195) reads and writes:
`self.is_running` and `self.next_page_token`. -/
structure AppState where
  is_running : Bool
  next_page_token : Option String
deriving DecidableEq

/-- `start` (lines 184-195): returns the new state and `some chatId` when a
polling thread was launched for `chatId`, `none` otherwise.  `locate` is the
combined outcome of `get_live_video_id` / `get_live_chat_id` (an exception
is reported in a dialog and `start` returns).  The `if self.is_running:
return` guard comes first, before any other work. -/
def start (s : AppState) (locate : Except String String) :
    AppState × Option String :=
  if s.is_running then (s, none)
  else
    match locate with
    | .error _ => (s, none)
    | .ok chatId => ({ s with is_running := true }, some chatId)

/-- A sequence of `start` button presses (each with the locate outcome of
that press), counting how many polling threads get launched.  Nothing in
`start` ever resets `is_running` (only `on_close` does, which destroys the
app). -/
def startMany (s : AppState) : List (Except String String) → AppState × Nat
  | [] => (s, 0)
  | l :: ls =>
    ((startMany (start s l).1 ls).1,
     (if (start s l).2.isSome then 1 else 0) + (startMany (start s l).1 ls).2)

/-! ### Concrete sample environments and inputs

Used by the closed counterexample and witness theorems below.  `envG` is a
plain googletrans session; `envSkipG` / `envSkipL` detect every text as
`"ja"` with `"ja"` in the skip set (under the googletrans resp. libre
engine); `envC7` is a libre session whose endpoint answers HTTP 500 with a
JSON body that lacks `translatedText`. -/

/-- A googletrans session: detection yields `"en"`, translation of `t` into
`c` yields `t ++ "-" ++ c`, two target languages, completion order
`["fr", "es"]` (opposite to submission order). -/
def envG : Env :=
  { detect := fun _ => "en"
    googleTranslate := fun t c => .ok (t ++ "-" ++ c)
    librePost := fun _ _ => .ok ⟨200, some (some "x")⟩
    engine := "googletrans"
    skipLangs := ["ja"]
    targetCodes := ["es", "fr"]
    order := fun _ => ["fr", "es"]
    clock := fun n => toString n }

/-- Like `envG`, but every text is detected as `"ja"`, which is in the skip
set, and the single target language is `"en"`. -/
def envSkipG : Env :=
  { envG with
    detect := fun _ => "ja"
    targetCodes := ["en"]
    order := fun _ => ["en"] }

/-- Like `envSkipG`, but with the libre engine selected. -/
def envSkipL : Env :=
  { envSkipG with engine := "libre" }

/-- A libre session whose endpoint replies with HTTP status 500 and a JSON
body that parses but carries no `translatedText` field. -/
def envC7 : Env :=
  { envG with
    engine := "libre"
    librePost := fun _ _ => .ok ⟨500, some none⟩ }

/-- A response carrying one message `m1`, a next-page token and a 2000 ms
polling interval. -/
def respA : PollResp :=
  { items := [⟨"m1", "alice", "hello"⟩]
    nextPageToken := some "tok1"
    pollingIntervalMillis := some 2000 }

/-- A response carrying one message `m2` and a next-page token. -/
def respB : PollResp :=
  { items := [⟨"m2", "bob", "hi"⟩]
    nextPageToken := some "tok2"
    pollingIntervalMillis := some 1000 }

/-- An empty response that carries no `nextPageToken` at all. -/
def respNoTok : PollResp :=
  { items := []
    nextPageToken := none
    pollingIntervalMillis := none }

/-- A response carrying one message whose text the skip environments detect
as `"ja"`. -/
def respSkip : PollResp :=
  { items := [⟨"m1", "alice", "hola"⟩]
    nextPageToken := some "tok1"
    pollingIntervalMillis := some 2000 }

/-! ### Helper lemmas -/

theorem dispatch_no_fetch (env : Env) (ts a text : String) (ord : List String) :
    ∀ e ∈ dispatch env ts a text ord, isFetch e = false := by
  intro e he
  rcases List.mem_map.mp he with ⟨code, _, rfl⟩
  rfl

theorem processItem_no_fetch (env : Env) (st : LoopState) (it : Item) :
    ∀ e ∈ (processItem env st it).2, isFetch e = false := by
  intro e he
  unfold processItem at he
  split at he
  · simp at he
  · split at he
    · rcases List.mem_cons.mp he with rfl | he
      · rfl
      · rcases List.mem_cons.mp he with rfl | he
        · rfl
        · simp at he
    · rcases List.mem_cons.mp he with rfl | he
      · rfl
      · rcases List.mem_cons.mp he with rfl | he
        · rfl
        · exact dispatch_no_fetch _ _ _ _ _ e he

theorem processItems_no_fetch (env : Env) :
    ∀ (items : List Item) (st : LoopState),
      ∀ e ∈ (processItems env st items).2, isFetch e = false := by
  intro items
  induction items with
  | nil => intro st e he; simp [processItems] at he
  | cons it its ih =>
    intro st e he
    rcases List.mem_append.mp he with h | h
    · exact processItem_no_fetch env st it e h
    · exact ih _ e h

theorem pollStep_no_fetch (env : Env) (st : LoopState) (r : PollResp) :
    ∀ e ∈ (pollStep env st r).2, isFetch e = false := by
  intro e he
  rcases List.mem_append.mp he with h | h
  · exact processItems_no_fetch env r.items st e h
  · rcases List.mem_cons.mp h with rfl | h
    · rfl
    · simp at h

theorem pollStep_countP_isFetch (env : Env) (st : LoopState) (r : PollResp) :
    (pollStep env st r).2.countP isFetch = 0 :=
  List.countP_eq_zero.mpr (by
    intro e he
    simp [pollStep_no_fetch env st r e he])

theorem fetchCursors_pollStep (env : Env) (st : LoopState) (r : PollResp) :
    fetchCursors (pollStep env st r).2 = [] := by
  refine List.filterMap_eq_nil_iff.mpr ?_
  intro e he
  have h := pollStep_no_fetch env st r e he
  cases e <;> simp_all [isFetch, fetchToken]

theorem contains_eq_decide_mem (l : List String) (a : String) :
    l.contains a = decide (a ∈ l) := by
  simp [List.contains]

theorem dispatch_countP_isProcess (env : Env) (ts a text : String)
    (ord : List String) (id : String) :
    (dispatch env ts a text ord).countP (isProcess id) = 0 := by
  induction ord with
  | nil => simp [dispatch]
  | cons c cs ih => simp [dispatch, isProcess, List.countP_cons, ih]

theorem processItem_countP_isProcess (env : Env) (st : LoopState) (it : Item)
    (id : String) :
    (processItem env st it).2.countP (isProcess id) =
      if it.id ∈ st.seen then 0 else if it.id = id then 1 else 0 := by
  by_cases hmem : it.id ∈ st.seen
  · simp [processItem, contains_eq_decide_mem, hmem]
  · simp only [processItem, contains_eq_decide_mem, hmem, decide_eq_true_eq,
      if_neg, if_false]
    split
    · simp only [List.countP_cons, List.countP_nil, isProcess]
      by_cases h : it.id = id <;> simp [h]
    · simp only [List.countP_cons, dispatch_countP_isProcess, isProcess]
      by_cases h : it.id = id <;> simp [h]

theorem processItem_fst (env : Env) (st : LoopState) (it : Item) :
    (processItem env st it).1 =
      if it.id ∈ st.seen then st else ⟨it.id :: st.seen, st.count + 1⟩ := by
  by_cases hmem : it.id ∈ st.seen
  · simp [processItem, contains_eq_decide_mem, hmem]
  · simp only [processItem, contains_eq_decide_mem, hmem, decide_eq_true_eq,
      if_neg, if_false]
    split <;> rfl

theorem processItems_countP_isProcess (env : Env) (id : String) :
    ∀ (items : List Item) (st : LoopState),
      (processItems env st items).2.countP (isProcess id) =
        if id ∈ st.seen then 0
        else if id ∈ items.map Item.id then 1 else 0 := by
  intro items
  induction items with
  | nil => intro st; simp [processItems]
  | cons it its ih =>
    intro st
    simp only [processItems, List.countP_append, processItem_countP_isProcess,
      processItem_fst, ih, List.map_cons, List.mem_cons]
    by_cases h1 : it.id ∈ st.seen
    · simp only [h1, if_true]
      by_cases h2 : id ∈ st.seen
      · simp [h2]
      · have : ¬ id = it.id := fun h => h2 (h ▸ h1)
        simp [h2, this]
    · simp only [h1, if_false]
      by_cases h3 : it.id = id
      · subst h3
        simp [h1, List.mem_cons]
      · have h3' : ¬ id = it.id := fun h => h3 h.symm
        by_cases h2 : id ∈ st.seen
        · simp [h2, h3, h3', List.mem_cons]
        · simp only [if_neg h3, Nat.zero_add]
          have hcons : ¬ id ∈ it.id :: st.seen := by
            simp [List.mem_cons, h2, h3']
          simp [hcons, h2, h3']

theorem processItems_fst_seen (env : Env) (id : String) :
    ∀ (items : List Item) (st : LoopState),
      (id ∈ (processItems env st items).1.seen ↔
        id ∈ st.seen ∨ id ∈ items.map Item.id) := by
  intro items
  induction items with
  | nil => intro st; simp [processItems]
  | cons it its ih =>
    intro st
    simp only [processItems, processItem_fst, List.map_cons, List.mem_cons]
    by_cases h1 : it.id ∈ st.seen
    · simp only [h1, if_true, ih]
      constructor
      · rintro (h | h)
        · exact Or.inl h
        · exact Or.inr (Or.inr h)
      · rintro (h | rfl | h)
        · exact Or.inl h
        · exact Or.inl h1
        · exact Or.inr h
    · simp only [h1, if_false, ih, List.mem_cons]
      tauto

theorem pollLoop_countP_isProcess (env : Env) (id : String) :
    ∀ (rs : List (Except String PollResp)) (cursor : Option String)
      (st : LoopState),
      (pollLoop env cursor st rs).countP (isProcess id) =
        if id ∈ st.seen then 0
        else if id ∈ consumedIds rs then 1 else 0 := by
  intro rs
  induction rs with
  | nil => intro cursor st; simp [pollLoop, consumedIds]
  | cons r rs ih =>
    intro cursor st
    cases r with
    | error e =>
      simp [pollLoop, consumedIds, List.countP_cons, isProcess]
    | ok r =>
      simp only [pollLoop, consumedIds, List.countP_cons, List.countP_append,
        isProcess, pollStep, processItems_countP_isProcess, ih,
        processItems_fst_seen, List.mem_append]
      by_cases h1 : id ∈ st.seen
      · simp [h1]
      · by_cases h2 : id ∈ r.items.map Item.id
        · simp [h1, h2]
        · simp [h1, h2]

theorem fetchCursors_pollLoop_ok (env : Env) (cursor : Option String)
    (st : LoopState) (r : PollResp) (rs : List (Except String PollResp)) :
    fetchCursors (pollLoop env cursor st (.ok r :: rs)) =
      cursor.getD "" ::
        fetchCursors (pollLoop env r.nextPageToken (pollStep env st r).1 rs) := by
  have hnil := fetchCursors_pollStep env st r
  simp only [fetchCursors] at hnil
  simp only [pollLoop, fetchCursors, List.filterMap_cons, List.filterMap_append,
    fetchToken, hnil, List.nil_append]

theorem fetchCursors_head (env : Env) (rs : List PollResp)
    (cursor : Option String) (st : LoopState) (h : rs ≠ []) :
    (fetchCursors (pollLoop env cursor st (rs.map .ok))).get? 0 =
      some (cursor.getD "") := by
  cases rs with
  | nil => exact absurd rfl h
  | cons r rs => simp [fetchCursors_pollLoop_ok]

theorem fetchCursors_succ (env : Env) :
    ∀ (rs : List PollResp) (cursor : Option String) (st : LoopState) (N : Nat)
      (h : N + 1 < rs.length),
      (fetchCursors (pollLoop env cursor st (rs.map .ok))).get? (N + 1) =
        some ((rs.get ⟨N, Nat.lt_of_succ_lt h⟩).nextPageToken.getD "") := by
  intro rs
  induction rs with
  | nil => intro cursor st N h; simp at h
  | cons r rs ih =>
    intro cursor st N h
    rw [List.map_cons, fetchCursors_pollLoop_ok, List.get?_cons_succ]
    cases N with
    | zero =>
      have hne : rs ≠ [] := by
        intro hnil
        rw [hnil] at h
        simp at h
      rw [fetchCursors_head env rs _ _ hne]
      rfl
    | succ M =>
      have h' : M + 1 < rs.length := by
        simp only [List.length_cons] at h
        omega
      rw [ih r.nextPageToken (pollStep env st r).1 M h']
      rfl

/-! ### Claim theorems -/

/-- C1: within one polling session, each message id appearing in the poll
results the loop consumes is forwarded to processing (marked by its
`processMsg` event) exactly once, even when the id occurs in several
responses: the seen-set guard discards already-seen ids and adds a new id
before processing it. -/
theorem c1_dedup_exactly_once (env : Env) (rs : List (Except String PollResp))
    (id : String) :
    (pollSession env rs).countP (isProcess id) =
      if id ∈ consumedIds rs then 1 else 0 := by
  rw [pollSession, pollLoop_countP_isProcess env id rs none ⟨[], 0⟩]
  simp

/-- C2 (counterexample): the claim says a failed fetch is reported and the
loop continues with the next iteration.  In this concrete session the first
fetch fails and the run ends immediately: only one fetch ever happens and
the message `m2` of the second response is never processed. -/
theorem c2_counterexample :
    (pollSession envG [.error "HttpError 503", .ok respB]).countP isFetch = 1 ∧
    (pollSession envG [.error "HttpError 503", .ok respB]).countP
      (isProcess "m2") = 0 ∧
    respB.items = [⟨"m2", "bob", "hi"⟩] := by
  decide

/-- C2 (amended): there is no `try/except` around the fetch call, so an
iteration whose fetch fails produces only its fetch event: the exception
propagates out of `_poll_loop`, no error is reported, nothing further is
processed and the polling session terminates. -/
theorem c2_fetch_failure_terminates (env : Env) (cursor : Option String)
    (st : LoopState) (e : String) (rs : List (Except String PollResp)) :
    pollLoop env cursor st (.error e :: rs) = [Event.fetch (cursor.getD "")] ∧
    (∀ id, (pollLoop env cursor st (.error e :: rs)).countP (isProcess id) = 0) ∧
    (pollLoop env cursor st (.error e :: rs)).countP isFetch = 1 := by
  refine ⟨rfl, fun id => ?_, ?_⟩ <;> simp [pollLoop, isProcess, isFetch, List.countP_cons]

/-- C4 (counterexample): the claim says the poller does not wait for the
current message's translations before the next fetch.  In this concrete
two-response session both translation rows of message `m1` (and the sleep)
appear in the trace strictly before the second fetch event, which sits at
index 6: the loop collected every translation result first. -/
theorem c4_counterexample :
    (pollSession envG [.ok respA, .ok respB]).get? 6 =
      some (Event.fetch "tok1") ∧
    Event.csvRow "0" "alice" "fr" "hello" "hello-fr" ∈
      (pollSession envG [.ok respA, .ok respB]).take 6 ∧
    Event.csvRow "0" "alice" "es" "hello" "hello-es" ∈
      (pollSession envG [.ok respA, .ok respB]).take 6 ∧
    ((pollSession envG [.ok respA, .ok respB]).take 6).countP isFetch = 1 := by
  decide

/-- C4 (amended): the poller waits: the `as_completed` loop at lines 247-254
runs inside the item loop, so one poll iteration's trace consists of its
fetch, then all of its processing events — including every translation
outcome row of its messages — then the sleep, and only then the events of
the following iterations.  The iteration's own events contain no fetch, so
every translation row of iteration N precedes fetch N+1; translation tasks
run concurrently only with each other, not with the next poll iteration. -/
theorem c4_poller_waits_for_translations (env : Env) (cursor : Option String)
    (st : LoopState) (r : PollResp) (rs : List (Except String PollResp)) :
    pollLoop env cursor st (.ok r :: rs) =
      Event.fetch (cursor.getD "") ::
        ((pollStep env st r).2 ++
          pollLoop env r.nextPageToken (pollStep env st r).1 rs) ∧
    (pollStep env st r).2.countP isFetch = 0 ∧
    (pollStep env st r).2.getLast? = some (Event.sleepSec (intervalSec r)) :=
  ⟨rfl, pollStep_countP_isFetch env st r, List.getLast?_concat _⟩

/-- C5 (counterexample): the claim says an absent cursor is used only on the
very first call, never mid-session.  Here the first response carries no
`nextPageToken`, and the second fetch call — mid-session — is issued with
the absent cursor `""` (exactly what the first call used). -/
theorem c5_counterexample :
    (fetchCursors (pollSession envG [.ok respNoTok, .ok respB])).get? 0 =
      some "" ∧
    (fetchCursors (pollSession envG [.ok respNoTok, .ok respB])).get? 1 =
      some "" ∧
    respNoTok.nextPageToken = none := by
  decide

/-- C5 (amended): the cursor used on fetch call N+1 always equals the
`nextPageToken` of call N's response (with absence passed as `""`), updated
unconditionally even for empty responses; the first call uses the initial
token; and an absent (`""`) cursor can occur mid-session only when the
previous response carried no (or an empty) token — if every response carries
a nonempty token, no call after the first uses an absent cursor. -/
theorem c5_cursor_threading (env : Env) (cursor : Option String)
    (st : LoopState) (rs : List PollResp) (N : Nat) (h : N + 1 < rs.length) :
    (fetchCursors (pollLoop env cursor st (rs.map .ok))).get? (N + 1) =
      some ((rs.get ⟨N, Nat.lt_of_succ_lt h⟩).nextPageToken.getD "") ∧
    (fetchCursors (pollLoop env cursor st (rs.map .ok))).get? 0 =
      some (cursor.getD "") ∧
    ((∀ r ∈ rs, (r.nextPageToken).getD "" ≠ "") →
      (fetchCursors (pollLoop env cursor st (rs.map .ok))).get? (N + 1) ≠
        some "") := by
  refine ⟨fetchCursors_succ env rs cursor st N h, ?_, ?_⟩
  · apply fetchCursors_head
    intro hnil
    rw [hnil] at h
    simp at h
  · intro hall hcontra
    rw [fetchCursors_succ env rs cursor st N h] at hcontra
    have hmem : rs.get ⟨N, Nat.lt_of_succ_lt h⟩ ∈ rs := List.get_mem rs _ _
    exact hall _ hmem (Option.some.inj hcontra)

/-- C5 (witness): the amended cursor-threading theorem applied to a concrete
two-response session. -/
theorem c5_witness :
    (fetchCursors (pollLoop envG none ⟨[], 0⟩
        (([respA, respB] : List PollResp).map .ok))).get? 1 =
      some ((([respA, respB] : List PollResp).get
        ⟨0, by decide⟩).nextPageToken.getD "") ∧
    (fetchCursors (pollLoop envG none ⟨[], 0⟩
        (([respA, respB] : List PollResp).map .ok))).get? 0 =
      some ((none : Option String).getD "") ∧
    ((∀ r ∈ ([respA, respB] : List PollResp), (r.nextPageToken).getD "" ≠ "") →
      (fetchCursors (pollLoop envG none ⟨[], 0⟩
          (([respA, respB] : List PollResp).map .ok))).get? 1 ≠ some "") :=
  c5_cursor_threading envG none ⟨[], 0⟩ [respA, respB] 0 (by decide)

/-- C10: each iteration ends with a sleep of exactly the response's
`pollingIntervalMillis` divided by 1000 seconds, and a response without
that field sleeps the default 2000 ms, i.e. 2 seconds. -/
theorem c10_sleep_interval (env : Env) (st : LoopState) (r : PollResp) :
    (pollStep env st r).2.getLast? = some (Event.sleepSec (intervalSec r)) ∧
    (∀ m : Nat,
      intervalSec { r with pollingIntervalMillis := some m } = (m : ℚ) / 1000) ∧
    intervalSec { r with pollingIntervalMillis := none } = 2 := by
  refine ⟨List.getLast?_concat _, fun m => rfl, ?_⟩
  norm_num [intervalSec]

/-- C3 (counterexample): the claim says that under the remote (libre)
backend skip filtering is bypassed and every message is translated.  In
this concrete session the libre engine is active, the message is detected
as `"ja"` (in the skip set) and is skipped: its only row is the skip row
and no row tagged with the target language `"en"` is produced. -/
theorem c3_counterexample :
    envSkipL.engine = "libre" ∧
    (processItem envSkipL ⟨[], 0⟩ ⟨"m1", "alice", "hola"⟩).2 =
      [Event.processMsg "m1", Event.csvRow "0" "alice" "ja" "hola" "hola"] ∧
    (processItem envSkipL ⟨[], 0⟩ ⟨"m1", "alice", "hola"⟩).2.countP
      (isRowWithLang "en") = 0 := by
  decide

/-- C3 (amended): `_detect_language` always uses the embedded googletrans
client, whatever backend is selected for translation — detection is not
delegated to the active backend's capability — so under the libre backend
skip filtering still applies: a new message whose detected language is in
the skip set is skipped (one skip row, no translation), and the detection
result does not depend on the selected engine at all. -/
theorem c3_detection_independent_of_backend (env : Env) (st : LoopState)
    (it : Item) (e' : String)
    (_heng : env.engine = "libre")
    (hseen : ¬ it.id ∈ st.seen)
    (hskip : detect_language env it.text ∈ env.skipLangs) :
    (processItem env st it).2 =
      [Event.processMsg it.id,
       Event.csvRow (env.clock st.count) it.author
         (detect_language env it.text) it.text it.text] ∧
    detect_language { env with engine := e' } it.text =
      detect_language env it.text := by
  refine ⟨?_, rfl⟩
  simp [processItem, contains_eq_decide_mem, hseen, hskip]

/-- C3 (witness): the amended theorem applied to a concrete libre session
with a skipped message. -/
theorem c3_witness :
    envSkipL.engine = "libre" ∧
    ¬ ("m9" : String) ∈ (⟨[], 0⟩ : LoopState).seen ∧
    detect_language envSkipL "hola" ∈ envSkipL.skipLangs ∧
    ((processItem envSkipL ⟨[], 0⟩ ⟨"m9", "bob", "hola"⟩).2 =
        [Event.processMsg "m9",
         Event.csvRow (envSkipL.clock 0) "bob"
           (detect_language envSkipL "hola") "hola" "hola"] ∧
      detect_language { envSkipL with engine := "googletrans" } "hola" =
        detect_language envSkipL "hola") :=
  ⟨rfl, by decide, by decide,
   c3_detection_independent_of_backend envSkipL ⟨[], 0⟩ ⟨"m9", "bob", "hola"⟩
     "googletrans" rfl (by decide) (by decide)⟩

/-- C7 (counterexample): the claim says a non-2xx response or a missing
`translatedText` field surfaces as a translation failure.  Here the libre
endpoint answers HTTP 500 with a JSON body that has no `translatedText`
field, and `_translate_free` returns the successful empty string — the
status code is never inspected and the missing field falls back to `""`,
so no failure is surfaced. -/
theorem c7_counterexample :
    envC7.librePost "hello" "en" = .ok ⟨500, some none⟩ ∧
    translate_free envC7 "hello" "en" = .ok "" ∧
    isFailure (translate_free envC7 "hello" "en") = false :=
  ⟨rfl, rfl, rfl⟩

/-- C7 (amended): through the libre backend, a network error (the POST
raising) and a non-JSON body (`r.json()` raising) surface as failures of
that one request; a parseable JSON body yields a success carrying the
`translatedText` field or `""` when the field is absent — a missing field
or a non-2xx status is not surfaced as a failure; and no outcome ever
aborts the rest of the batch: the dispatch still yields one row per
completed future. -/
theorem c7_libre_failure_semantics (env : Env) (text target : String)
    (heng : env.engine = "libre") :
    (∀ e, env.librePost text target = .error e →
      translate_free env text target = .error e) ∧
    (∀ r, env.librePost text target = .ok r → r.jsonBody = none →
      translate_free env text target = .error "JSONDecodeError") ∧
    (∀ r f, env.librePost text target = .ok r → r.jsonBody = some f →
      translate_free env text target = .ok (f.getD "")) ∧
    (∀ ts a ord, (dispatch env ts a text ord).length = ord.length) := by
  refine ⟨?_, ?_, ?_, ?_⟩
  · intro e he; simp [translate_free, heng, he]
  · intro r he hb; simp [translate_free, heng, he, hb]
  · intro r f he hb; simp [translate_free, heng, he, hb]
  · intro ts a ord; simp [dispatch]

/-- C7 (witness): the amended failure semantics applied to the concrete
libre session `envC7`. -/
theorem c7_witness :
    envC7.engine = "libre" ∧
    ((∀ e, envC7.librePost "hello" "en" = .error e →
        translate_free envC7 "hello" "en" = .error e) ∧
      (∀ r, envC7.librePost "hello" "en" = .ok r → r.jsonBody = none →
        translate_free envC7 "hello" "en" = .error "JSONDecodeError") ∧
      (∀ r f, envC7.librePost "hello" "en" = .ok r → r.jsonBody = some f →
        translate_free envC7 "hello" "en" = .ok (f.getD "")) ∧
      (∀ ts a ord, (dispatch envC7 ts a "hello" ord).length = ord.length)) :=
  ⟨rfl, c7_libre_failure_semantics envC7 "hello" "en" rfl⟩

theorem startMany_of_running (s : AppState) (h : s.is_running = true) :
    ∀ ls, (startMany s ls).2 = 0 := by
  intro ls
  induction ls with
  | nil => rfl
  | cons l ls ih => simp [startMany, start, h, ih]

/-- C9: calling `start` while a session is already running returns
immediately: the state is unchanged and no second poll loop is launched;
moreover once running, any further sequence of presses launches nothing,
and from any state at most one poll loop is ever launched (nothing resets
`is_running` short of closing the app). -/
theorem c9_start_guard (s : AppState) (locate : Except String String)
    (h : s.is_running = true) :
    start s locate = (s, none) ∧
    (∀ ls, (startMany s ls).2 = 0) ∧
    (∀ (s0 : AppState) (ls : List (Except String String)),
      (startMany s0 ls).2 ≤ 1) := by
  refine ⟨by simp [start, h], startMany_of_running s h, ?_⟩
  intro s0 ls
  induction ls generalizing s0 with
  | nil => simp [startMany]
  | cons l ls ih =>
    by_cases h0 : s0.is_running = true
    · simp [startMany_of_running s0 h0]
    · cases l with
      | error e =>
        simpa [startMany, start, h0] using ih s0
      | ok cid =>
        have hz := startMany_of_running ⟨true, s0.next_page_token⟩ rfl ls
        simp [startMany, start, h0, hz]

/-- C9 (witness): the guard theorem applied to a running state. -/
theorem c9_witness :
    (⟨true, none⟩ : AppState).is_running = true ∧
    (start ⟨true, none⟩ (.ok "chat1") = (⟨true, none⟩, none) ∧
      (∀ ls, (startMany ⟨true, none⟩ ls).2 = 0) ∧
      (∀ (s0 : AppState) (ls : List (Except String String)),
        (startMany s0 ls).2 ≤ 1)) :=
  ⟨rfl, c9_start_guard ⟨true, none⟩ (.ok "chat1") rfl⟩

theorem dispatch_filter_agree (env env2 : Env) (ts author text code : String)
    (hagree : translate_free env2 text code = translate_free env text code) :
    ∀ ord : List String,
      (dispatch env2 ts author text ord).filter (isRowWithLang code) =
        (dispatch env ts author text ord).filter (isRowWithLang code) := by
  intro ord
  induction ord with
  | nil => rfl
  | cons c cs ih =>
    simp only [dispatch, List.map_cons, List.filter_cons] at ih ⊢
    by_cases hc : c = code
    · subst hc
      simp only [isRowWithLang, beq_self_eq_true, if_true, hagree, ih]
    · have hb : (c == code) = false := by simp [hc]
      simp only [isRowWithLang, hb, Bool.false_eq_true, if_false, ih]

/-- C6: dispatching one message to the configured target languages and
collecting the futures in any completion order yields exactly one outcome
row per target language — no duplicates, no omissions — each tagged with
its own target code and carrying exactly the rendered result of its own
translation; and the rows a given target code receives are unchanged when
the translations of the other codes change (in particular when they fail),
as long as that code's own translation result is the same. -/
theorem c6_fanout_complete_isolated (env env2 : Env) (ts author text : String)
    (ord : List String)
    (hperm : ord.Perm env.targetCodes) (hnodup : env.targetCodes.Nodup) :
    (dispatch env ts author text ord).length = env.targetCodes.length ∧
    (∀ code ∈ env.targetCodes,
      (dispatch env ts author text ord).countP (isRowWithLang code) = 1 ∧
      Event.csvRow ts author code text
        (renderOutcome (translate_free env text code)) ∈
          dispatch env ts author text ord) ∧
    (∀ code, translate_free env2 text code = translate_free env text code →
      (dispatch env2 ts author text ord).filter (isRowWithLang code) =
        (dispatch env ts author text ord).filter (isRowWithLang code)) := by
  refine ⟨?_, ?_, ?_⟩
  · simp [dispatch, hperm.length_eq]
  · intro code hcode
    constructor
    · rw [dispatch, List.countP_map]
      have hp : (isRowWithLang code ∘ fun c =>
          Event.csvRow ts author c text
            (renderOutcome (translate_free env text c))) = (fun c => c == code) := by
        funext c; rfl
      rw [hp]
      have : List.countP (fun c => c == code) ord = List.count code ord := by
        simp [List.count]
      rw [this, hperm.count_eq code, List.count_eq_one_of_mem hnodup hcode]
    · have : code ∈ ord := hperm.mem_iff.mpr hcode
      exact List.mem_map_of_mem _ this
  · intro code hagree
    exact dispatch_filter_agree env env2 ts author text code hagree ord

/-- C6 (witness): the fan-out theorem applied to the concrete session
`envG`, whose targets are `es` and `fr`, with the completion order reversed
relative to submission order. -/
theorem c6_witness :
    (["fr", "es"] : List String).Perm envG.targetCodes ∧
    envG.targetCodes.Nodup ∧
    ((dispatch envG "0" "alice" "hello" ["fr", "es"]).length =
        envG.targetCodes.length ∧
      (∀ code ∈ envG.targetCodes,
        (dispatch envG "0" "alice" "hello" ["fr", "es"]).countP
          (isRowWithLang code) = 1 ∧
        Event.csvRow "0" "alice" code "hello"
          (renderOutcome (translate_free envG "hello" code)) ∈
            dispatch envG "0" "alice" "hello" ["fr", "es"]) ∧
      (∀ code, translate_free envG "hello" code = translate_free envG "hello" code →
        (dispatch envG "0" "alice" "hello" ["fr", "es"]).filter
            (isRowWithLang code) =
          (dispatch envG "0" "alice" "hello" ["fr", "es"]).filter
            (isRowWithLang code))) :=
  ⟨by decide, by decide,
   c6_fanout_complete_isolated envG envG "0" "alice" "hello" ["fr", "es"]
     (by decide) (by decide)⟩

theorem processItem_csv_shape (env : Env) (st : LoopState) (it : Item)
    (ts a lang orig tr : String)
    (h : Event.csvRow ts a lang orig tr ∈ (processItem env st it).2) :
    rowSpec env lang orig tr := by
  unfold processItem at h
  split at h
  · simp at h
  · split at h
    · rename_i hskip
      rcases List.mem_cons.mp h with heq | h
      · exact Event.noConfusion heq
      · rcases List.mem_cons.mp h with heq | h
        · injection heq with h1 h2 h3 h4 h5
          subst h3; subst h4; subst h5
          refine Or.inr (Or.inl ⟨rfl, ?_, rfl⟩)
          rw [contains_eq_decide_mem] at hskip
          exact of_decide_eq_true hskip
        · simp at h
    · rcases List.mem_cons.mp h with heq | h
      · exact Event.noConfusion heq
      · rcases List.mem_cons.mp h with heq | h
        · injection heq with h1 h2 h3 h4 h5
          subst h3; subst h4; subst h5
          exact Or.inl ⟨rfl, rfl⟩
        · rcases List.mem_map.mp h with ⟨code, hcode, heq⟩
          injection heq.symm with h1 h2 h3 h4 h5
          subst h3; subst h4; subst h5
          exact Or.inr (Or.inr ⟨st.count, hcode, rfl⟩)

theorem processItems_csv_shape (env : Env) (ts a lang orig tr : String) :
    ∀ (items : List Item) (st : LoopState),
      Event.csvRow ts a lang orig tr ∈ (processItems env st items).2 →
        rowSpec env lang orig tr := by
  intro items
  induction items with
  | nil => intro st h; simp [processItems] at h
  | cons it its ih =>
    intro st h
    rcases List.mem_append.mp h with h | h
    · exact processItem_csv_shape env st it ts a lang orig tr h
    · exact ih _ h

/-- C8: every row the session log receives has the five columns
`(timestamp, author, lang, original, translated)`, and its `lang` column is
either `"original"` (the untranslated row of a translated message, whose
translated column repeats the original text), or the detected language of a
skipped message (whose translated column also repeats the original text —
not `"original"` and not empty, contrary to the claim's wording), or a
target-language code from the completion order of some processed message
(whose translated column is that code's rendered translation outcome). -/
theorem c8_row_shape (env : Env) (cursor : Option String) (st : LoopState)
    (rs : List (Except String PollResp)) (ts a lang orig tr : String)
    (h : Event.csvRow ts a lang orig tr ∈ pollLoop env cursor st rs) :
    rowSpec env lang orig tr := by
  induction rs generalizing cursor st with
  | nil => simp [pollLoop] at h
  | cons r rs ih =>
    cases r with
    | error e =>
      simp only [pollLoop, List.mem_singleton] at h
      exact Event.noConfusion h
    | ok r =>
      simp only [pollLoop] at h
      rcases List.mem_cons.mp h with heq | h
      · exact Event.noConfusion heq
      · rcases List.mem_append.mp h with h | h
        · rcases List.mem_append.mp h with h | h
          · exact processItems_csv_shape env ts a lang orig tr r.items st h
          · rcases List.mem_singleton.mp h with heq
            exact Event.noConfusion heq
        · exact ih _ _ h

/-- C8 (counterexample): the claim says `lang` is `"original"` for a
message's untranslated row and a target code for translated rows, and that
a skipped message is recorded with no translation.  In this concrete
session the skipped message's only row — its untranslated row — carries the
detected language `"ja"` in the `lang` column (neither `"original"` nor any
target code, the only target being `"en"`), and its translated column
repeats the original text. -/
theorem c8_counterexample :
    Event.csvRow "0" "alice" "ja" "hola" "hola" ∈
      pollSession envSkipG [.ok respSkip] ∧
    ("ja" : String) ≠ "original" ∧
    envSkipG.targetCodes = ["en"] ∧
    ¬ ("ja" : String) ∈ envSkipG.targetCodes := by
  decide

/-- C8 (witness): the row-shape theorem applied to the untranslated row of
the concrete session over `respA`. -/
theorem c8_witness :
    rowSpec envG "original" "hello" "hello" :=
  c8_row_shape envG none ⟨[], 0⟩ [.ok respA] "0" "alice" "original" "hello"
    "hello" (by decide)

end ChatTransrator
